import Mathlib

/-!
Verification of the Knowledge-Table client script (`src/main/main.py`).

The script is a thin, sequential HTTP client: it uploads a PDF, builds three
fixed classification columns, splits the document's chunks into rows (one per
non-blank line), asks the remote service for cells, joins cells back to rows,
prints a table and writes the results as JSON.

We embed the pure parts (string splitting/stripping, row construction, column
construction, cell aggregation, JSON shape) directly; the HTTP calls are
modelled by an environment of responses, and the top-level workflow as a
function from that environment to the printed lines and the optionally
written output file.
-/

/-- Python's default whitespace set for `str.strip()` (ASCII part; the inputs
here are ASCII text lines). -/
def pyIsSpace (c : Char) : Bool :=
  c = ' ' || c = '\t' || c = '\n' || c = '\x0d' || c = '\x0b' || c = '\x0c'

/-- Drop the maximal suffix of characters satisfying `p`: `c :: rest` keeps
`c` unless everything after it is dropped and `c` itself satisfies `p`. -/
def dropTrailing (p : Char → Bool) : List Char → List Char
  | [] => []
  | c :: rest =>
    match dropTrailing p rest with
    | [] => if p c then [] else [c]
    | d :: ds => c :: d :: ds

/-- Python `str.strip()` on a list of characters: drop whitespace from both
ends. -/
def pyStripL (l : List Char) : List Char :=
  dropTrailing pyIsSpace (l.dropWhile pyIsSpace)

/-- Python `str.strip()` on a `String`. -/
def pyStrip (s : String) : String :=
  (pyStripL s.data).asString

/-- Python `s.split('\n')` on a list of characters: split at every newline,
keeping empty segments; the result is always non-empty. -/
def splitNlL : List Char → List (List Char)
  | [] => [[]]
  | c :: rest =>
    match splitNlL rest with
    | [] => [[c]]
    | h :: t => if c = '\n' then [] :: h :: t else (c :: h) :: t

/-- Python `s.split('\n')` on a `String`. -/
def splitNl (s : String) : List String :=
  (splitNlL s.data).map List.asString

/-- Python `f"{s:<w}"`: left-justify by padding with spaces to width `w`. -/
def pyLJust (s : String) (w : Nat) : String :=
  s ++ (List.replicate (w - s.length) ' ').asString

/-- A table row as built by `create_table_rows`: the `cells` dict starts empty
and is never filled locally, so we model it as an association list. -/
structure Row where
  id : String
  sourceData : String
  hidden : Bool
  cells : List (String × String)
deriving DecidableEq, Repr

/-- The row-ID scheme of `create_table_rows`: `f"row_{i}_{len(rows)}"`. -/
def rowId (i count : Nat) : String :=
  "row_" ++ Nat.repr i ++ "_" ++ Nat.repr count

/-- `create_table_rows` (src/main/main.py, lines 97-123), with the chunk
contents already extracted from the HTTP response: for each chunk, strip its
content, split on newlines, and emit one row per non-blank line, the ID
carrying the chunk index and the running row count. -/
def create_table_rows (chunkContents : List String) : List Row :=
  chunkContents.enum.foldl
    (fun rows ic =>
      (splitNl (pyStrip ic.2)).foldl
        (fun rows line =>
          if pyStrip line ≠ "" then
            rows ++ [{ id := rowId ic.1 rows.length
                       sourceData := pyStrip line
                       hidden := false
                       cells := [] }]
          else rows)
        rows)
    []

/-- The fixed list of technology areas (src/main/main.py, lines 10-21). -/
def TECH_AREAS : List String := [
    "AI and ML", "Application Infrastructure and Software", "Augmented and Virtual Reality",
    "Blockchain", "Cloud Computing and Virtualization", "Computer Vision", "Cryptology",
    "Cybersecurity", "Data Science", "Digital Forensics", "Enterprise Business Technologies",
    "Hardware, Semiconductors and Embedded", "Human Computer Interaction",
    "Identity Management and Authentication", "Internet of Things", "Location and Presence",
    "Material Science", "Mobility and End Points", "Natural Language Processing",
    "Next Generation Computing", "Operating Systems", "Quantum Technology",
    "Robotics and Automation", "Software Defined Infrastructure", "Unmanned Aerial Vehicles",
    "Wireless and Networking Technologies", "5G and 6G", "API and development",
    "Mobile development", "Website development"
]

/-- A formatting rule of a column descriptor. -/
structure Rule where
  id : String
  type : String
  value : String
deriving DecidableEq, Repr

/-- A column descriptor as built by `create_table_columns`. -/
structure Column where
  id : String
  hidden : Bool
  entityType : String
  type : String
  generate : Bool
  query : String
  rules : List Rule
deriving DecidableEq, Repr

/-- `create_table_columns` (src/main/main.py, lines 46-95): the three fixed
classification columns. -/
def create_table_columns : List Column := [
  { id := "is_indian"
    hidden := false
    entityType := "Company"
    type := "boolean"
    generate := true
    query := "Is this company based in India or of Indian origin?"
    rules := [{ id := "rule1", type := "format", value := "Y/N" }] },
  { id := "is_startup"
    hidden := false
    entityType := "Company"
    type := "boolean"
    generate := true
    query := "Is this company a startup?"
    rules := [{ id := "rule2", type := "format", value := "Y/N" }] },
  { id := "is_tech"
    hidden := false
    entityType := "Company"
    type := "boolean"
    generate := true
    query := "Is this company related to technology, specifically in any of these areas: "
             ++ String.intercalate ", " TECH_AREAS ++ "?"
    rules := [{ id := "rule3", type := "format", value := "Y/N" }] }
]

/-- A cell as returned by the generate-cells endpoint. -/
structure Cell where
  rowId : String
  columnId : String
  answer : String
deriving DecidableEq, Repr

/-- One aggregated result record, with the keys used in the script:
"Company", "Is Indian", "Is Startup", "Is Tech". -/
structure CompanyData where
  company : String
  isIndian : String
  isStartup : String
  isTech : String
deriving DecidableEq, Repr

/-- The per-row aggregation loop of `process_pdf_and_classify_companies`
(src/main/main.py, lines 164-184): start from the "N/A" defaults and walk the
cell list in order, copying the answer of every cell whose `rowId` matches
into the field selected by its `columnId`. -/
def aggregateRow (cells : List Cell) (row : Row) : CompanyData :=
  cells.foldl
    (fun cd cell =>
      if cell.rowId = row.id then
        if cell.columnId = "is_indian" then { cd with isIndian := cell.answer }
        else if cell.columnId = "is_startup" then { cd with isStartup := cell.answer }
        else if cell.columnId = "is_tech" then { cd with isTech := cell.answer }
        else cd
      else cd)
    { company := row.sourceData
      isIndian := "N/A"
      isStartup := "N/A"
      isTech := "N/A" }

/-- The full aggregation: one result per row, in row order. -/
def aggregate (rows : List Row) (cells : List Cell) : List CompanyData :=
  rows.map (aggregateRow cells)

/-- JSON values, restricted to the shapes this script writes and a reader
parses back: strings, arrays and objects (an object is a key-ordered
association list, as Python dicts preserve insertion order). -/
inductive Json where
  | str : String → Json
  | arr : List Json → Json
  | obj : List (String × Json) → Json

/-- The JSON value `json.dump(results, f, indent=2)` serializes
(src/main/main.py, lines 193-194): an array of objects with the four keys in
insertion order. -/
def dumpResult (r : CompanyData) : Json :=
  Json.obj [("Company", Json.str r.company),
            ("Is Indian", Json.str r.isIndian),
            ("Is Startup", Json.str r.isStartup),
            ("Is Tech", Json.str r.isTech)]

/-- The serialized results array. -/
def dumpResults (results : List CompanyData) : Json :=
  Json.arr (results.map dumpResult)

/-- First value bound to `key` in a JSON object, as a dict lookup would
return it. -/
def jsonLookup (key : String) : List (String × Json) → Option Json
  | [] => none
  | (k, v) :: rest => if k = key then some v else jsonLookup key rest

/-- Modelled from the spec: a generic JSON reader of the written file
(`company_classification_results.json`); the repository contains no reading
code, so we parse the way any standard JSON consumer of the stated shape
would: expect an array of objects and read the four string fields of each. -/
def parseResult (j : Json) : Option CompanyData :=
  match j with
  | Json.obj fields =>
    match jsonLookup "Company" fields, jsonLookup "Is Indian" fields,
          jsonLookup "Is Startup" fields, jsonLookup "Is Tech" fields with
    | some (Json.str c), some (Json.str i), some (Json.str s), some (Json.str t) =>
      some { company := c, isIndian := i, isStartup := s, isTech := t }
    | _, _, _, _ => none
  | _ => none

/-- Modelled from the spec: parse the whole written file back into result
records, in array order. -/
def parseResults (j : Json) : Option (List CompanyData) :=
  match j with
  | Json.arr items => items.mapM parseResult
  | _ => none

/-- The printed table line for one result:
`f"{Company:<30} | {Is Indian:<10} | {Is Startup:<10} | {Is Tech:<10}"`
(src/main/main.py, line 191). -/
def printedLine (r : CompanyData) : String :=
  pyLJust r.company 30 ++ " | " ++ pyLJust r.isIndian 10 ++ " | "
    ++ pyLJust r.isStartup 10 ++ " | " ++ pyLJust r.isTech 10

/-- The responses the three HTTP endpoints would give during one run: the
status code and raw body of each response, plus the parsed payload the script
would extract from a successful body (`id`, the chunk `content` strings, the
`cells` array). -/
structure Env where
  uploadStatus : Nat
  uploadBody : String
  uploadId : String
  chunksStatus : Nat
  chunksBody : String
  chunkContents : List String
  cellsStatus : Nat
  cellsBody : String
  cells : List Cell
deriving Repr

/-- `upload_pdf` (src/main/main.py, lines 23-44): raise unless the status is
201, else return the document ID from the response. -/
def upload_pdf (e : Env) : Except String String :=
  if e.uploadStatus ≠ 201 then
    Except.error ("Failed to upload document: " ++ e.uploadBody)
  else
    Except.ok e.uploadId

/-- `create_table_rows` with its HTTP fetch (src/main/main.py, lines 97-123):
raise unless the chunk fetch returns 200, else build the rows from the chunk
contents. -/
def create_table_rows_http (e : Env) : Except String (List Row) :=
  if e.chunksStatus ≠ 200 then
    Except.error ("Failed to get document chunks: " ++ e.chunksBody)
  else
    Except.ok (create_table_rows e.chunkContents)

/-- `generate_table_cells` (src/main/main.py, lines 125-143): raise unless
the generation endpoint returns 200, else return the cells array. -/
def generate_table_cells (e : Env) (columns : List Column) (rows : List Row) :
    Except String (List Cell) :=
  if e.cellsStatus ≠ 200 then
    Except.error ("Failed to generate cells: " ++ e.cellsBody)
  else
    Except.ok e.cells

/-- What one run observably produces: the lines printed to standard output,
in order, and the JSON value written to
`company_classification_results.json` (`none` when the run ended in the
`except` handler before reaching the write). -/
structure RunOutput where
  printed : List String
  outFile : Option Json

/-- `process_pdf_and_classify_companies` (src/main/main.py, lines 144-202):
the five steps in order, each exception short-circuiting to the single
`except` handler, which prints the error; the output file is written only on
the full success path, after the table is printed. -/
def process_pdf (e : Env) : RunOutput :=
  match upload_pdf e with
  | Except.error msg => { printed := ["Error: " ++ msg], outFile := none }
  | Except.ok documentId =>
    let p1 := ["Document uploaded successfully with ID: " ++ documentId]
    let columns := create_table_columns
    let p2 := p1 ++ ["Table columns created"]
    match create_table_rows_http e with
    | Except.error msg => { printed := p2 ++ ["Error: " ++ msg], outFile := none }
    | Except.ok rows =>
      let p3 := p2 ++ ["Created " ++ Nat.repr rows.length ++ " rows from document"]
      match generate_table_cells e columns rows with
      | Except.error msg => { printed := p3 ++ ["Error: " ++ msg], outFile := none }
      | Except.ok cells =>
        let p4 := p3 ++ ["Generated " ++ Nat.repr cells.length ++ " cells"]
        let results := aggregate rows cells
        let dashes := (List.replicate 80 '-').asString
        let header := pyLJust "Company" 30 ++ " | " ++ pyLJust "Is Indian" 10 ++ " | "
          ++ pyLJust "Is Startup" 10 ++ " | " ++ pyLJust "Is Tech" 10
        let p5 := p4 ++ ["\nCompany Classification Results:", dashes, header, dashes]
          ++ results.map printedLine
        { printed := p5 ++ ["\nResults saved to company_classification_results.json"]
          outFile := some (dumpResults results) }

/-! ### Derived notions used to state the claims -/

/-- A line is non-blank when it has a non-whitespace character (equivalently,
Python's `line.strip()` is truthy). -/
def isNonBlank (l : List Char) : Bool :=
  l.any (fun c => !pyIsSpace c)

/-- Number of non-blank lines in a list of lines. -/
def countNonBlank (ls : List (List Char)) : Nat :=
  ls.countP isNonBlank

/-- Number of non-blank lines of a chunk's text. -/
def countNonBlankLines (content : String) : Nat :=
  countNonBlank (splitNlL content.data)

/-- The rows one chunk (index `i`) contributes when the row list already
holds `start` rows: one row per non-blank line, with consecutive running
counts. -/
def chunkRows (i start : Nat) : List String → List Row
  | [] => []
  | line :: rest =>
    if pyStrip line ≠ "" then
      { id := rowId i start
        sourceData := pyStrip line
        hidden := false
        cells := [] } :: chunkRows i (start + 1) rest
    else chunkRows i start rest

/-- The per-chunk contributions of `create_table_rows`, starting at chunk
index `i` with `start` rows already built. -/
def contribsGo (i start : Nat) : List String → List (List Row)
  | [] => []
  | content :: rest =>
    let rs := chunkRows i start (splitNl (pyStrip content))
    rs :: contribsGo (i + 1) (start + rs.length) rest

/-- The per-chunk contributions of `create_table_rows`. -/
def contribs (chunkContents : List String) : List (List Row) :=
  contribsGo 0 0 chunkContents

/-- Number of (possibly overlapping) occurrences of `pat` in `hay`. -/
def countOccurL (pat : List Char) : List Char → Nat
  | [] => 0
  | c :: rest => (if pat.isPrefixOf (c :: rest) then 1 else 0) + countOccurL pat rest

/-- Number of occurrences of a non-empty pattern string in a string. -/
def countOccur (pat s : String) : Nat :=
  countOccurL pat.data s.data

/-- The natural-language query of the technology column: the fixed prefix
followed by the comma-separated technology areas. -/
def techQuery : String :=
  "Is this company related to technology, specifically in any of these areas: "
    ++ String.intercalate ", " TECH_AREAS ++ "?"

/-- The answer of the last cell of `cells` that matches row `rid` and column
`col`, defaulting to "N/A" when none matches. -/
def lastMatchAnswer (cells : List Cell) (rid col : String) : String :=
  ((cells.filter (fun c => c.rowId == rid && c.columnId == col)).getLast?.map
    Cell.answer).getD "N/A"

/-- The result field selected by a column ID, when the column is one of the
three the script knows. -/
def colField (col : String) (cd : CompanyData) : Option String :=
  if col = "is_indian" then some cd.isIndian
  else if col = "is_startup" then some cd.isStartup
  else if col = "is_tech" then some cd.isTech
  else none

/-! ### Decimal representations: `Nat.repr` is injective and underscore-free -/

/-- Numeric value of a decimal digit character. -/
def digitVal (c : Char) : Nat := c.toNat - 48

lemma digitVal_digitChar (m : Nat) (h : m < 10) :
    digitVal (Nat.digitChar m) = m := by
  interval_cases m <;> decide

lemma digitChar_ne_underscore (m : Nat) (h : m < 10) :
    Nat.digitChar m ≠ '_' := by
  interval_cases m <;> decide

lemma toDigitsCore_decode (fuel : Nat) :
    ∀ (n : Nat) (ds : List Char), n < fuel →
      (Nat.toDigitsCore 10 fuel n ds).foldl (fun a c => a * 10 + digitVal c) 0
        = ds.foldl (fun a c => a * 10 + digitVal c) n := by
  induction fuel with
  | zero => intro n ds h; omega
  | succ fuel ih =>
    intro n ds h
    show (Nat.toDigitsCore 10 (fuel + 1) n ds).foldl _ 0 = _
    rw [Nat.toDigitsCore]
    by_cases h10 : n / 10 = 0
    · rw [if_pos h10, List.foldl_cons]
      have hv : (0 : Nat) * 10 + digitVal (Nat.digitChar (n % 10)) = n := by
        rw [digitVal_digitChar _ (Nat.mod_lt _ (by norm_num))]
        omega
      rw [hv]
    · rw [if_neg h10, ih (n / 10) _ (by omega), List.foldl_cons]
      have hv : n / 10 * 10 + digitVal (Nat.digitChar (n % 10)) = n := by
        rw [digitVal_digitChar _ (Nat.mod_lt _ (by norm_num))]
        omega
      rw [hv]

lemma repr_decode (n : Nat) :
    (Nat.repr n).data.foldl (fun a c => a * 10 + digitVal c) 0 = n := by
  show ((Nat.toDigits 10 n).asString).data.foldl _ 0 = n
  rw [Nat.toDigits]
  exact toDigitsCore_decode (n + 1) n [] (Nat.lt_succ_self n)

lemma repr_injective {a b : Nat} (h : Nat.repr a = Nat.repr b) : a = b := by
  have ha := repr_decode a
  rw [h, repr_decode b] at ha
  exact ha.symm

lemma toDigitsCore_ne_underscore (fuel : Nat) :
    ∀ (n : Nat) (ds : List Char), (∀ c ∈ ds, c ≠ '_') →
      ∀ c ∈ Nat.toDigitsCore 10 fuel n ds, c ≠ '_' := by
  induction fuel with
  | zero => intro n ds hds; exact hds
  | succ fuel ih =>
    intro n ds hds c hc
    rw [Nat.toDigitsCore] at hc
    have hdig : ∀ d ∈ Nat.digitChar (n % 10) :: ds, d ≠ '_' := by
      intro d hd
      rcases List.mem_cons.mp hd with h | h
      · subst h; exact digitChar_ne_underscore _ (Nat.mod_lt _ (by norm_num))
      · exact hds d h
    by_cases h10 : n / 10 = 0
    · rw [if_pos h10] at hc
      exact hdig c hc
    · rw [if_neg h10] at hc
      exact ih (n / 10) _ hdig c hc

lemma repr_ne_underscore (n : Nat) : ∀ c ∈ (Nat.repr n).data, c ≠ '_' := by
  show ∀ c ∈ ((Nat.toDigits 10 n).asString).data, c ≠ '_'
  rw [Nat.toDigits]
  exact toDigitsCore_ne_underscore (n + 1) n [] (by intro c hc; cases hc)

lemma underscore_split :
    ∀ (a1 a2 b1 b2 : List Char), (∀ c ∈ a1, c ≠ '_') → (∀ c ∈ a2, c ≠ '_') →
      a1 ++ '_' :: b1 = a2 ++ '_' :: b2 → a1 = a2 ∧ b1 = b2 := by
  intro a1
  induction a1 with
  | nil =>
    intro a2 b1 b2 _ h2 heq
    cases a2 with
    | nil => simpa using heq
    | cons y ys =>
      exfalso
      have : '_' = y := by simpa using congrArg List.head? heq
      exact h2 y (List.mem_cons_self y ys) this.symm
  | cons x xs ih =>
    intro a2 b1 b2 h1 h2 heq
    cases a2 with
    | nil =>
      exfalso
      have : x = '_' := by simpa using congrArg List.head? heq
      exact h1 x (List.mem_cons_self x xs) this
    | cons y ys =>
      simp only [List.cons_append, List.cons.injEq] at heq
      obtain ⟨hxy, htail⟩ := heq
      obtain ⟨hxs, hb⟩ := ih ys b1 b2
        (fun c hc => h1 c (List.mem_cons_of_mem x hc))
        (fun c hc => h2 c (List.mem_cons_of_mem y hc)) htail
      exact ⟨by rw [hxy, hxs], hb⟩

/-- Two row IDs with different running counts are different strings. -/
lemma rowId_inj_count {i1 i2 c1 c2 : Nat} (h : rowId i1 c1 = rowId i2 c2) :
    c1 = c2 := by
  have hdata := congrArg String.data h
  simp only [rowId, String.data_append] at hdata
  have hdata2 : (Nat.repr i1).data ++ '_' :: (Nat.repr c1).data
      = (Nat.repr i2).data ++ '_' :: (Nat.repr c2).data := by
    simpa using hdata
  obtain ⟨_, hc⟩ := underscore_split _ _ _ _ (repr_ne_underscore i1)
    (repr_ne_underscore i2) hdata2
  exact repr_injective (String.ext hc)

/-! ### Splitting and stripping preserve the number of non-blank lines -/

lemma splitNlL_ne_nil (l : List Char) : splitNlL l ≠ [] := by
  cases l with
  | nil => simp [splitNlL]
  | cons c rest =>
    simp only [splitNlL]
    cases splitNlL rest with
    | nil => simp
    | cons h t =>
      by_cases hc : c = '\n' <;> simp [hc]

lemma splitNlL_cons (c : Char) (l h : List Char) (t : List (List Char))
    (hs : splitNlL l = h :: t) :
    splitNlL (c :: l) = if c = '\n' then [] :: h :: t else (c :: h) :: t := by
  rw [splitNlL, hs]

lemma isNonBlank_cons (c : Char) (l : List Char) :
    isNonBlank (c :: l) = (!pyIsSpace c || isNonBlank l) := by
  simp [isNonBlank, List.any_cons]

lemma countP_eq_count_true_map (p : α → Bool) (l : List α) :
    l.countP p = (l.map p).count true := by
  induction l with
  | nil => simp
  | cons x xs ih =>
    simp only [List.countP_cons, List.map_cons, List.count_cons, ih]
    cases hx : p x <;> simp [hx]

lemma countNB_dropWhile (m : List Char) :
    countNonBlank (splitNlL (m.dropWhile pyIsSpace)) = countNonBlank (splitNlL m) := by
  induction m with
  | nil => rfl
  | cons c rest ih =>
    by_cases hc : pyIsSpace c
    · rw [List.dropWhile_cons, if_pos hc]
      rw [ih]
      cases hs : splitNlL rest with
      | nil => exact absurd hs (splitNlL_ne_nil rest)
      | cons h t =>
        by_cases hnl : c = '\n'
        · simp only [splitNlL, hs, if_pos hnl]
          simp [countNonBlank, List.countP_cons, isNonBlank]
        · simp only [splitNlL, hs, if_neg hnl]
          simp [countNonBlank, List.countP_cons, isNonBlank_cons, hc]
    · rw [List.dropWhile_cons, if_neg hc]

lemma splitNlL_dropTrailing (m : List Char) :
    ∃ k, (splitNlL m).map isNonBlank
      = (splitNlL (dropTrailing pyIsSpace m)).map isNonBlank ++ List.replicate k false := by
  induction m with
  | nil => exact ⟨0, by simp [dropTrailing]⟩
  | cons c rest ih =>
    obtain ⟨k, hk⟩ := ih
    cases hr : dropTrailing pyIsSpace rest with
    | nil =>
      rw [hr] at hk
      simp only [splitNlL, List.map_cons, List.map_nil] at hk
      by_cases hc : pyIsSpace c
      · have hres : dropTrailing pyIsSpace (c :: rest) = [] := by
          simp [dropTrailing, hr, hc]
        rw [hres]
        by_cases hnl : c = '\n'
        · refine ⟨k + 1, ?_⟩
          cases hs : splitNlL rest with
          | nil => exact absurd hs (splitNlL_ne_nil rest)
          | cons h t =>
            rw [hs] at hk
            simp only [List.map_cons] at hk
            have hk2 : isNonBlank h :: t.map isNonBlank = false :: List.replicate k false := by
              simpa [isNonBlank] using hk
            simp only [splitNlL, hs, if_pos hnl, List.map_cons]
            rw [hk2]
            simp [splitNlL, isNonBlank, List.replicate_succ]
        · refine ⟨k, ?_⟩
          cases hs : splitNlL rest with
          | nil => exact absurd hs (splitNlL_ne_nil rest)
          | cons h t =>
            rw [hs] at hk
            simp only [List.map_cons] at hk
            have hk2 : isNonBlank h :: t.map isNonBlank = false :: List.replicate k false := by
              simpa [isNonBlank] using hk
            have hh : isNonBlank h = false ∧ t.map isNonBlank = List.replicate k false := by
              exact ⟨(List.cons.injEq _ _ _ _ ▸ hk2).1, (List.cons.injEq _ _ _ _ ▸ hk2).2⟩
            simp only [splitNlL, hs, if_neg hnl, List.map_cons]
            rw [isNonBlank_cons, hc, hh.1, hh.2]
            simp [splitNlL, isNonBlank]
      · have hres : dropTrailing pyIsSpace (c :: rest) = [c] := by
          simp [dropTrailing, hr, hc]
        rw [hres]
        have hnl : c ≠ '\n' := by
          intro h
          rw [h] at hc
          exact hc (by decide)
        refine ⟨k, ?_⟩
        cases hs : splitNlL rest with
        | nil => exact absurd hs (splitNlL_ne_nil rest)
        | cons h t =>
          rw [hs] at hk
          simp only [List.map_cons] at hk
          have hk2 : isNonBlank h :: t.map isNonBlank = false :: List.replicate k false := by
            simpa [isNonBlank] using hk
          have hh : t.map isNonBlank = List.replicate k false :=
            (List.cons.injEq _ _ _ _ ▸ hk2).2
          simp only [splitNlL, hs, if_neg hnl, List.map_cons]
          rw [isNonBlank_cons, hh]
          simp [splitNlL, isNonBlank_cons, hc]
    | cons d ds =>
      have hres : dropTrailing pyIsSpace (c :: rest) = c :: d :: ds := by
        simp [dropTrailing, hr]
      rw [hr] at hk
      rw [hres]
      by_cases hnl : c = '\n'
      · refine ⟨k, ?_⟩
        cases hs : splitNlL rest with
        | nil => exact absurd hs (splitNlL_ne_nil rest)
        | cons h t =>
          cases hs2 : splitNlL (d :: ds) with
          | nil => exact absurd hs2 (splitNlL_ne_nil _)
          | cons h2 t2 =>
            rw [hs, hs2] at hk
            simp only [List.map_cons, List.cons_append] at hk
            rw [splitNlL_cons c _ _ _ hs, splitNlL_cons c _ _ _ hs2, if_pos hnl,
              if_pos hnl]
            simp only [List.map_cons, List.cons_append]
            rw [hk]
      · refine ⟨k, ?_⟩
        cases hs : splitNlL rest with
        | nil => exact absurd hs (splitNlL_ne_nil rest)
        | cons h t =>
          cases hs2 : splitNlL (d :: ds) with
          | nil => exact absurd hs2 (splitNlL_ne_nil _)
          | cons h2 t2 =>
            rw [hs, hs2] at hk
            simp only [List.map_cons, List.cons_append] at hk
            injection hk with hk1 hk2
            rw [splitNlL_cons c _ _ _ hs, splitNlL_cons c _ _ _ hs2, if_neg hnl,
              if_neg hnl]
            simp only [List.map_cons, List.cons_append]
            rw [isNonBlank_cons, isNonBlank_cons, hk1, hk2]

lemma countNB_dropTrailing (m : List Char) :
    countNonBlank (splitNlL (dropTrailing pyIsSpace m)) = countNonBlank (splitNlL m) := by
  obtain ⟨k, hk⟩ := splitNlL_dropTrailing m
  unfold countNonBlank
  rw [countP_eq_count_true_map, countP_eq_count_true_map, hk]
  simp [List.count_append, List.count_replicate]

lemma countNB_pyStrip (m : List Char) :
    countNonBlank (splitNlL (pyStripL m)) = countNonBlank (splitNlL m) := by
  unfold pyStripL
  rw [countNB_dropTrailing, countNB_dropWhile]

lemma dropTrailing_eq_nil_iff (p : Char → Bool) (l : List Char) :
    dropTrailing p l = [] ↔ l.all p = true := by
  induction l with
  | nil => simp [dropTrailing]
  | cons c rest ih =>
    cases hr : dropTrailing p rest with
    | nil =>
      have hall : rest.all p = true := ih.mp hr
      by_cases hc : p c = true <;>
        simp [dropTrailing, hr, List.all_cons, hall, hc]
    | cons d ds =>
      have hnall : ¬ rest.all p = true := by
        intro h
        rw [ih.mpr h] at hr
        cases hr
      simp [dropTrailing, hr, List.all_cons, hnall]

lemma dropWhile_all (p : Char → Bool) (l : List Char) :
    (l.dropWhile p).all p = l.all p := by
  induction l with
  | nil => rfl
  | cons c rest ih =>
    by_cases hc : p c = true
    · rw [List.dropWhile_cons, if_pos hc, ih, List.all_cons, hc, Bool.true_and]
    · rw [List.dropWhile_cons, if_neg hc]

lemma pyStripL_eq_nil_iff (l : List Char) :
    pyStripL l = [] ↔ isNonBlank l = false := by
  unfold pyStripL
  rw [dropTrailing_eq_nil_iff, dropWhile_all]
  constructor
  · intro h
    rw [Bool.eq_false_iff]
    intro hany
    simp only [isNonBlank, List.any_eq_true, Bool.not_eq_true'] at hany
    obtain ⟨x, hx, hpx⟩ := hany
    rw [List.all_eq_true] at h
    rw [h x hx] at hpx
    cases hpx
  · intro h
    rw [List.all_eq_true]
    intro x hx
    by_contra hpx
    have hxf : pyIsSpace x = false := by simpa using hpx
    have hx2 : isNonBlank l = true := by
      simp only [isNonBlank, List.any_eq_true]
      exact ⟨x, hx, by rw [hxf]; rfl⟩
    rw [h] at hx2
    cases hx2

lemma head_dropWhile_not (p : Char → Bool) (l : List Char) :
    ∀ c, (l.dropWhile p).head? = some c → p c = false := by
  induction l with
  | nil => intro c hc; cases hc
  | cons x rest ih =>
    intro c hc
    by_cases hx : p x = true
    · rw [List.dropWhile_cons, if_pos hx] at hc
      exact ih c hc
    · rw [List.dropWhile_cons, if_neg hx] at hc
      simp only [List.head?_cons, Option.some.injEq] at hc
      rw [← hc]
      simpa using hx

lemma head_dropTrailing (p : Char → Bool) (l : List Char) :
    ∀ c, (dropTrailing p l).head? = some c → l.head? = some c := by
  induction l with
  | nil => intro c hc; cases hc
  | cons x rest ih =>
    intro c hc
    cases hr : dropTrailing p rest with
    | nil =>
      rw [dropTrailing, hr] at hc
      by_cases hx : p x = true
      · rw [if_pos hx] at hc
        cases hc
      · rw [if_neg hx] at hc
        simpa using hc
    | cons d ds =>
      rw [dropTrailing, hr] at hc
      simpa using hc

lemma getLast_dropTrailing (p : Char → Bool) (l : List Char) :
    ∀ c, (dropTrailing p l).getLast? = some c → p c = false := by
  induction l with
  | nil => intro c hc; cases hc
  | cons x rest ih =>
    intro c hc
    cases hr : dropTrailing p rest with
    | nil =>
      rw [dropTrailing, hr] at hc
      by_cases hx : p x = true
      · rw [if_pos hx] at hc
        cases hc
      · rw [if_neg hx] at hc
        simp only [List.getLast?_singleton, Option.some.injEq] at hc
        rw [← hc]
        simpa using hx
    | cons d ds =>
      rw [dropTrailing, hr] at hc
      rw [List.getLast?_cons_cons] at hc
      rw [← hr] at hc
      exact ih c hc

lemma pyStripL_head (l : List Char) (c : Char) :
    (pyStripL l).head? = some c → pyIsSpace c = false := by
  intro h
  exact head_dropWhile_not pyIsSpace l c (head_dropTrailing pyIsSpace _ c h)

lemma pyStripL_getLast (l : List Char) (c : Char) :
    (pyStripL l).getLast? = some c → pyIsSpace c = false := by
  intro h
  exact getLast_dropTrailing pyIsSpace _ c h

/-! ### Decomposing `create_table_rows` into per-chunk contributions -/

lemma innerFold_eq (i : Nat) (lines : List String) :
    ∀ rows : List Row,
      lines.foldl
        (fun rows line =>
          if pyStrip line ≠ "" then
            rows ++ [{ id := rowId i rows.length
                       sourceData := pyStrip line
                       hidden := false
                       cells := [] }]
          else rows)
        rows
      = rows ++ chunkRows i rows.length lines := by
  induction lines with
  | nil => intro rows; simp [chunkRows]
  | cons line rest ih =>
    intro rows
    by_cases hl : pyStrip line ≠ ""
    · rw [List.foldl_cons, if_pos hl, ih]
      simp only [chunkRows, if_pos hl]
      simp [List.append_assoc]
    · rw [List.foldl_cons, if_neg hl, ih]
      simp only [chunkRows, if_neg hl]

lemma createRows_go (chunks : List String) :
    ∀ (i : Nat) (rows : List Row),
      (List.enumFrom i chunks).foldl
        (fun rows ic =>
          (splitNl (pyStrip ic.2)).foldl
            (fun rows line =>
              if pyStrip line ≠ "" then
                rows ++ [{ id := rowId ic.1 rows.length
                           sourceData := pyStrip line
                           hidden := false
                           cells := [] }]
              else rows)
            rows)
        rows
      = rows ++ (contribsGo i rows.length chunks).flatten := by
  induction chunks with
  | nil => intro i rows; simp [contribsGo]
  | cons content rest ih =>
    intro i rows
    rw [List.enumFrom_cons, List.foldl_cons]
    rw [innerFold_eq i (splitNl (pyStrip content)) rows]
    rw [ih]
    simp only [contribsGo, List.flatten_cons, List.length_append]
    simp [List.append_assoc]

/-- `create_table_rows` is the concatenation of the per-chunk
contributions. -/
lemma create_table_rows_eq_contribs (chunks : List String) :
    create_table_rows chunks = (contribs chunks).flatten := by
  unfold create_table_rows contribs
  have h := createRows_go chunks 0 []
  simpa [List.enum] using h

lemma chunkRows_length (i : Nat) (lines : List String) :
    ∀ start, (chunkRows i start lines).length
      = lines.countP (fun line => decide (pyStrip line ≠ "")) := by
  induction lines with
  | nil => intro start; rfl
  | cons line rest ih =>
    intro start
    by_cases hl : pyStrip line ≠ ""
    · simp only [chunkRows, if_pos hl, List.length_cons, ih, List.countP_cons]
      simp [hl]
    · simp only [chunkRows, if_neg hl, ih, List.countP_cons]
      simp [hl]

lemma asString_data (x : List Char) : (List.asString x).data = x := rfl

lemma chunkRows_length_chunk (i start : Nat) (content : String) :
    (chunkRows i start (splitNl (pyStrip content))).length = countNonBlankLines content := by
  rw [chunkRows_length]
  unfold splitNl
  rw [List.countP_map]
  have hfun : ((fun line => decide (pyStrip line ≠ "")) ∘ List.asString) = isNonBlank := by
    funext l
    simp only [Function.comp]
    by_cases hl : isNonBlank l = true
    · rw [hl]
      apply decide_eq_true
      intro hemp
      have hdata : pyStripL ((List.asString l).data) = [] := congrArg String.data hemp
      rw [asString_data] at hdata
      rw [pyStripL_eq_nil_iff] at hdata
      rw [hl] at hdata
      cases hdata
    · have hl2 : isNonBlank l = false := by simpa using hl
      rw [hl2]
      apply decide_eq_false
      intro hne
      apply hne
      have hnil : pyStripL l = [] := (pyStripL_eq_nil_iff l).mpr hl2
      unfold pyStrip
      rw [asString_data, hnil]
      rfl
  rw [hfun]
  show countNonBlank (splitNlL (pyStrip content).data) = countNonBlankLines content
  rw [show (pyStrip content).data = pyStripL content.data from rfl]
  exact countNB_pyStrip content.data

lemma contribs_lengths (chunks : List String) :
    ∀ i start, (contribsGo i start chunks).map List.length = chunks.map countNonBlankLines := by
  induction chunks with
  | nil => intro i start; rfl
  | cons content rest ih =>
    intro i start
    simp only [contribsGo, List.map_cons]
    rw [chunkRows_length_chunk, ih]

lemma chunkRows_mem (i : Nat) (lines : List String) :
    ∀ start row, row ∈ chunkRows i start lines →
      row.cells = [] ∧ row.hidden = false ∧
      ∃ line ∈ lines, pyStrip line ≠ "" ∧ row.sourceData = pyStrip line := by
  induction lines with
  | nil => intro start row h; cases h
  | cons line rest ih =>
    intro start row h
    by_cases hl : pyStrip line ≠ ""
    · simp only [chunkRows, if_pos hl] at h
      rcases List.mem_cons.mp h with h0 | h1
      · subst h0
        exact ⟨rfl, rfl, line, List.mem_cons_self line rest, hl, rfl⟩
      · obtain ⟨hc, hh, l2, hml, hnb, hsd⟩ := ih (start + 1) row h1
        exact ⟨hc, hh, l2, List.mem_cons_of_mem line hml, hnb, hsd⟩
    · simp only [chunkRows, if_neg hl] at h
      obtain ⟨hc, hh, l2, hml, hnb, hsd⟩ := ih start row h
      exact ⟨hc, hh, l2, List.mem_cons_of_mem line hml, hnb, hsd⟩

lemma contribsGo_mem (chunks : List String) :
    ∀ i start rs, rs ∈ contribsGo i start chunks →
      ∃ content ∈ chunks, ∃ j s2, rs = chunkRows j s2 (splitNl (pyStrip content)) := by
  induction chunks with
  | nil => intro i start rs h; cases h
  | cons content rest ih =>
    intro i start rs h
    simp only [contribsGo] at h
    rcases List.mem_cons.mp h with h0 | h1
    · exact ⟨content, List.mem_cons_self content rest, i, start, h0⟩
    · obtain ⟨c2, hc2, j, s2, hrs⟩ := ih (i + 1) _ rs h1
      exact ⟨c2, List.mem_cons_of_mem content hc2, j, s2, hrs⟩

lemma chunkRows_id_at (i : Nat) (lines : List String) :
    ∀ start p (hp : p < (chunkRows i start lines).length),
      ((chunkRows i start lines)[p]).id = rowId i (start + p) := by
  induction lines with
  | nil => intro start p hp; simp [chunkRows] at hp
  | cons line rest ih =>
    intro start p hp
    by_cases hl : pyStrip line ≠ ""
    · simp only [chunkRows, if_pos hl] at hp ⊢
      cases p with
      | zero => simp
      | succ p =>
        rw [List.getElem_cons_succ]
        rw [ih (start + 1) p (by simpa using hp)]
        congr 1
        omega
    · simp only [chunkRows, if_neg hl] at hp ⊢
      exact ih start p hp

lemma contribsGo_flatten_id (chunks : List String) :
    ∀ i start p (hp : p < ((contribsGo i start chunks).flatten).length),
      ∃ j, (((contribsGo i start chunks).flatten)[p]).id = rowId j (start + p) := by
  induction chunks with
  | nil => intro i start p hp; simp [contribsGo] at hp
  | cons content rest ih =>
    intro i start p hp
    simp only [contribsGo, List.flatten_cons] at hp ⊢
    by_cases hlt : p < (chunkRows i start (splitNl (pyStrip content))).length
    · rw [List.getElem_append_left hlt]
      exact ⟨i, chunkRows_id_at i _ start p hlt⟩
    · have hle : (chunkRows i start (splitNl (pyStrip content))).length ≤ p :=
        Nat.le_of_not_lt hlt
      rw [List.getElem_append_right hle]
      have hp2 : p - (chunkRows i start (splitNl (pyStrip content))).length
          < ((contribsGo (i + 1)
              (start + (chunkRows i start (splitNl (pyStrip content))).length)
              rest).flatten).length := by
        rw [List.length_append] at hp
        omega
      obtain ⟨j, hj⟩ := ih (i + 1) _ _ hp2
      refine ⟨j, ?_⟩
      rw [hj]
      congr 1
      omega

lemma nodup_ids_of_positions (l : List Row) (start : Nat)
    (h : ∀ p (hp : p < l.length), ∃ j, (l[p]).id = rowId j (start + p)) :
    (l.map Row.id).Nodup := by
  rw [List.nodup_iff_injective_getElem]
  intro a b hab
  have hal : a.1 < l.length := by simpa using a.2
  have hbl : b.1 < l.length := by simpa using b.2
  simp only [List.getElem_map] at hab
  obtain ⟨j1, h1⟩ := h a.1 hal
  obtain ⟨j2, h2⟩ := h b.1 hbl
  rw [h1, h2] at hab
  have hcnt := rowId_inj_count hab
  exact Fin.ext (by omega)

/-! ### Claim C1 -/

/-- C1. Row construction: for every list of chunk contents,
`create_table_rows` is the concatenation of per-chunk contributions; the
contribution of each chunk has exactly as many rows as the chunk's text has
non-blank lines; every row starts with an empty cell mapping; the row IDs
(`row_{chunk index}_{running count}`) are pairwise distinct across the full
row set; and when all chunks are blank (in particular when there are none)
the row set is empty. -/
theorem spec_c1 (chunks : List String) :
    create_table_rows chunks = (contribs chunks).flatten ∧
    (contribs chunks).map List.length = chunks.map countNonBlankLines ∧
    (∀ row ∈ create_table_rows chunks, row.cells = []) ∧
    ((create_table_rows chunks).map Row.id).Nodup ∧
    ((∀ content ∈ chunks, countNonBlankLines content = 0) →
      create_table_rows chunks = []) := by
  refine ⟨create_table_rows_eq_contribs chunks, contribs_lengths chunks 0 0, ?_, ?_, ?_⟩
  · intro row hrow
    rw [create_table_rows_eq_contribs] at hrow
    obtain ⟨rs, hrs, hrow2⟩ := List.mem_flatten.mp hrow
    obtain ⟨content, hc, j, s2, rfl⟩ := contribsGo_mem chunks 0 0 rs hrs
    exact (chunkRows_mem j _ s2 row hrow2).1
  · rw [create_table_rows_eq_contribs]
    exact nodup_ids_of_positions _ 0 (contribsGo_flatten_id chunks 0 0)
  · intro hall
    rw [create_table_rows_eq_contribs]
    apply List.flatten_eq_nil_iff.mpr
    intro rs hrs
    have hmem : rs.length ∈ (contribs chunks).map List.length :=
      List.mem_map_of_mem List.length hrs
    rw [show contribs chunks = contribsGo 0 0 chunks from rfl,
      contribs_lengths chunks 0 0] at hmem
    obtain ⟨content, hc, hlen⟩ := List.mem_map.mp hmem
    rw [hall content hc] at hlen
    exact List.eq_nil_of_length_eq_zero hlen.symm

/-- Witness for C1 at a concrete input: two blank chunks produce no rows. -/
theorem spec_c1_witness : create_table_rows ["  \n  ", ""] = [] :=
  (spec_c1 ["  \n  ", ""]).2.2.2.2 (by decide)

/-! ### Characterizing the aggregation loop -/

lemma getLast_map_getD (f : Cell → String) (c : Cell) (l : List Cell) (d : String) :
    (((c :: l).getLast?).map f).getD d = ((l.getLast?).map f).getD (f c) := by
  cases l with
  | nil => rfl
  | cons b bs =>
    rw [List.getLast?_cons_cons]
    cases hl : (b :: bs).getLast? with
    | none =>
      rw [List.getLast?_eq_none_iff] at hl
      cases hl
    | some x => rfl

lemma aggregateRow_loop (row : Row) : ∀ (cells : List Cell) (cd : CompanyData),
    cells.foldl
      (fun cd cell =>
        if cell.rowId = row.id then
          if cell.columnId = "is_indian" then { cd with isIndian := cell.answer }
          else if cell.columnId = "is_startup" then { cd with isStartup := cell.answer }
          else if cell.columnId = "is_tech" then { cd with isTech := cell.answer }
          else cd
        else cd)
      cd
    = { company := cd.company
        isIndian := (((cells.filter (fun c =>
            c.rowId == row.id && c.columnId == "is_indian")).getLast?).map
              Cell.answer).getD cd.isIndian
        isStartup := (((cells.filter (fun c =>
            c.rowId == row.id && c.columnId == "is_startup")).getLast?).map
              Cell.answer).getD cd.isStartup
        isTech := (((cells.filter (fun c =>
            c.rowId == row.id && c.columnId == "is_tech")).getLast?).map
              Cell.answer).getD cd.isTech } := by
  intro cells
  induction cells with
  | nil => intro cd; rfl
  | cons c rest ih =>
    intro cd
    rw [List.foldl_cons]
    by_cases hr : c.rowId = row.id
    · by_cases h1 : c.columnId = "is_indian"
      · rw [if_pos hr, if_pos h1, ih]
        simp [List.filter_cons, hr, h1, getLast_map_getD]
      · by_cases h2 : c.columnId = "is_startup"
        · rw [if_pos hr, if_neg h1, if_pos h2, ih]
          simp [List.filter_cons, hr, h1, h2, getLast_map_getD]
        · by_cases h3 : c.columnId = "is_tech"
          · rw [if_pos hr, if_neg h1, if_neg h2, if_pos h3, ih]
            simp [List.filter_cons, hr, h1, h2, h3, getLast_map_getD]
          · rw [if_pos hr, if_neg h1, if_neg h2, if_neg h3, ih]
            simp [List.filter_cons, hr, h1, h2, h3]
    · rw [if_neg hr, ih]
      simp [List.filter_cons, hr]

/-- The result of the aggregation loop for one row: the company name, and for
each of the three columns the answer of the last matching cell, defaulting to
"N/A". -/
lemma aggregateRow_eq (cells : List Cell) (row : Row) :
    aggregateRow cells row =
      { company := row.sourceData
        isIndian := lastMatchAnswer cells row.id "is_indian"
        isStartup := lastMatchAnswer cells row.id "is_startup"
        isTech := lastMatchAnswer cells row.id "is_tech" } := by
  unfold aggregateRow lastMatchAnswer
  rw [aggregateRow_loop]

/-! ### Claims C2, C8, C9 -/

/-- C2. Aggregation: a row's result is part of the aggregation of the row
list; when no cell matches the row's ID all three answer fields are the
"N/A" sentinel; when exactly one cell matches per column, the three fields
are those cells' answers. -/
theorem spec_c2 (rows : List Row) (cells : List Cell) (row : Row) (hrow : row ∈ rows) :
    aggregateRow cells row ∈ aggregate rows cells ∧
    ((∀ c ∈ cells, c.rowId ≠ row.id) →
      aggregateRow cells row =
        { company := row.sourceData
          isIndian := "N/A", isStartup := "N/A", isTech := "N/A" }) ∧
    (∀ c1 c2 c3 : Cell,
      cells.filter (fun c => c.rowId == row.id && c.columnId == "is_indian") = [c1] →
      cells.filter (fun c => c.rowId == row.id && c.columnId == "is_startup") = [c2] →
      cells.filter (fun c => c.rowId == row.id && c.columnId == "is_tech") = [c3] →
      aggregateRow cells row =
        { company := row.sourceData
          isIndian := c1.answer, isStartup := c2.answer, isTech := c3.answer }) := by
  refine ⟨List.mem_map_of_mem (aggregateRow cells) hrow, ?_, ?_⟩
  · intro hno
    have hnil : ∀ col : String,
        cells.filter (fun c => c.rowId == row.id && c.columnId == col) = [] := by
      intro col
      apply List.filter_eq_nil_iff.mpr
      intro c hc
      simp [hno c hc]
    rw [aggregateRow_eq]
    simp [lastMatchAnswer, hnil]
  · intro c1 c2 c3 h1 h2 h3
    rw [aggregateRow_eq]
    simp [lastMatchAnswer, h1, h2, h3]

/-- Witness for C2 at a concrete input. -/
theorem spec_c2_witness :
    aggregateRow
      [⟨"row_0_0", "is_indian", "Y"⟩, ⟨"row_0_0", "is_startup", "N"⟩,
        ⟨"row_0_0", "is_tech", "Y"⟩]
      ⟨"row_0_0", "Acme", false, []⟩
    = { company := "Acme", isIndian := "Y", isStartup := "N", isTech := "Y" } :=
  (spec_c2 [⟨"row_0_0", "Acme", false, []⟩]
      [⟨"row_0_0", "is_indian", "Y"⟩, ⟨"row_0_0", "is_startup", "N"⟩,
        ⟨"row_0_0", "is_tech", "Y"⟩]
      ⟨"row_0_0", "Acme", false, []⟩ (by decide)).2.2
    ⟨"row_0_0", "is_indian", "Y"⟩ ⟨"row_0_0", "is_startup", "N"⟩
    ⟨"row_0_0", "is_tech", "Y"⟩ (by decide) (by decide) (by decide)

/-- C8. Duplicate cells: when several cells share the row ID and the column
ID, the result field for that row and column is the answer of the last such
cell in the response list. -/
theorem spec_c8 (cells : List Cell) (row : Row) (col : String) (d : Cell)
    (hcol : col = "is_indian" ∨ col = "is_startup" ∨ col = "is_tech")
    (hdup : 2 ≤ (cells.filter (fun c => c.rowId == row.id && c.columnId == col)).length)
    (hlast : (cells.filter (fun c => c.rowId == row.id && c.columnId == col)).getLast?
      = some d) :
    colField col (aggregateRow cells row) = some d.answer := by
  rw [aggregateRow_eq]
  rcases hcol with h | h | h <;> subst h <;> simp [colField, lastMatchAnswer, hlast]

/-- Witness for C8 at a concrete input: the second `is_indian` cell wins. -/
theorem spec_c8_witness :
    colField "is_indian"
      (aggregateRow
        [⟨"row_0_0", "is_indian", "Y"⟩, ⟨"row_0_0", "is_indian", "N"⟩]
        ⟨"row_0_0", "Acme", false, []⟩)
    = some "N" :=
  spec_c8
    [⟨"row_0_0", "is_indian", "Y"⟩, ⟨"row_0_0", "is_indian", "N"⟩]
    ⟨"row_0_0", "Acme", false, []⟩ "is_indian" ⟨"row_0_0", "is_indian", "N"⟩
    (Or.inl rfl) (by decide) (by decide)

/-- C9. Unknown cells are ignored: a cell whose row ID matches no row, or
whose column ID is none of the three known columns, can be removed from the
response list without changing any aggregated result. -/
theorem spec_c9 (rows : List Row) (cells1 cells2 : List Cell) (k : Cell)
    (h : (∀ row ∈ rows, k.rowId ≠ row.id) ∨
      (k.columnId ≠ "is_indian" ∧ k.columnId ≠ "is_startup" ∧ k.columnId ≠ "is_tech")) :
    aggregate rows (cells1 ++ k :: cells2) = aggregate rows (cells1 ++ cells2) := by
  unfold aggregate
  rw [List.map_eq_map_iff]
  intro row hrow
  have hfilt : ∀ col : String,
      col = "is_indian" ∨ col = "is_startup" ∨ col = "is_tech" →
      (cells1 ++ k :: cells2).filter (fun c => c.rowId == row.id && c.columnId == col)
        = (cells1 ++ cells2).filter (fun c => c.rowId == row.id && c.columnId == col) := by
    intro col hcol
    rw [List.filter_append, List.filter_append, List.filter_cons]
    have hk : (k.rowId == row.id && k.columnId == col) = false := by
      rcases h with h | h
      · simp [h row hrow]
      · rcases hcol with rfl | rfl | rfl <;> simp [h.1, h.2.1, h.2.2]
    rw [hk]
    simp
  rw [aggregateRow_eq, aggregateRow_eq]
  simp only [lastMatchAnswer, hfilt "is_indian" (Or.inl rfl),
    hfilt "is_startup" (Or.inr (Or.inl rfl)), hfilt "is_tech" (Or.inr (Or.inr rfl))]

/-- Witness for C9 at a concrete input: a cell with an unknown column ID is
ignored. -/
theorem spec_c9_witness :
    aggregate [⟨"row_0_0", "Acme", false, []⟩]
      ([⟨"row_0_0", "is_indian", "Y"⟩] ++ ⟨"row_0_0", "is_funded", "Y"⟩ :: [])
    = aggregate [⟨"row_0_0", "Acme", false, []⟩] ([⟨"row_0_0", "is_indian", "Y"⟩] ++ []) :=
  spec_c9 [⟨"row_0_0", "Acme", false, []⟩] [⟨"row_0_0", "is_indian", "Y"⟩] []
    ⟨"row_0_0", "is_funded", "Y"⟩ (Or.inr (by decide))

/-! ### Claims C3, C4, C5 -/

lemma parseResult_dumpResult (r : CompanyData) : parseResult (dumpResult r) = some r := by
  cases r
  rfl

lemma mapM_parse (results : List CompanyData) :
    (results.map dumpResult).mapM parseResult = some results := by
  induction results with
  | nil => rfl
  | cons r rest ih =>
    rw [List.map_cons, List.mapM_cons, parseResult_dumpResult, ih]
    rfl

lemma parseResults_dumpResults (results : List CompanyData) :
    parseResults (dumpResults results) = some results := by
  unfold parseResults dumpResults
  exact mapM_parse results

/-- The lines the success path prints before the per-result table lines. -/
def successHeader (e : Env) : List String :=
  ["Document uploaded successfully with ID: " ++ e.uploadId,
   "Table columns created",
   "Created " ++ Nat.repr (create_table_rows e.chunkContents).length ++ " rows from document",
   "Generated " ++ Nat.repr e.cells.length ++ " cells",
   "\nCompany Classification Results:",
   (List.replicate 80 '-').asString,
   pyLJust "Company" 30 ++ " | " ++ pyLJust "Is Indian" 10 ++ " | "
     ++ pyLJust "Is Startup" 10 ++ " | " ++ pyLJust "Is Tech" 10,
   (List.replicate 80 '-').asString]

/-- C3. Round-trip: on the success path the written file is the serialized
results array; parsing it back yields exactly the aggregated results, whose
`printedLine` renderings are the printed table rows, in the same order. -/
theorem spec_c3 (e : Env) (h1 : e.uploadStatus = 201) (h2 : e.chunksStatus = 200)
    (h3 : e.cellsStatus = 200) :
    ∃ results : List CompanyData,
      results = aggregate (create_table_rows e.chunkContents) e.cells ∧
      (process_pdf e).outFile = some (dumpResults results) ∧
      parseResults (dumpResults results) = some results ∧
      (process_pdf e).printed
        = successHeader e ++ results.map printedLine
          ++ ["\nResults saved to company_classification_results.json"] := by
  refine ⟨aggregate (create_table_rows e.chunkContents) e.cells, rfl, ?_,
    parseResults_dumpResults _, ?_⟩
  · simp [process_pdf, upload_pdf, create_table_rows_http, generate_table_cells,
      h1, h2, h3]
  · simp [process_pdf, upload_pdf, create_table_rows_http, generate_table_cells,
      h1, h2, h3, successHeader]

/-- Witness for C3 at a concrete environment. -/
theorem spec_c3_witness :
    ∃ results : List CompanyData,
      results = aggregate (create_table_rows ["Acme\n"]) [⟨"row_0_0", "is_indian", "Y"⟩] ∧
      (process_pdf ⟨201, "", "doc1", 200, "", ["Acme\n"], 200, "",
          [⟨"row_0_0", "is_indian", "Y"⟩]⟩).outFile = some (dumpResults results) ∧
      parseResults (dumpResults results) = some results ∧
      (process_pdf ⟨201, "", "doc1", 200, "", ["Acme\n"], 200, "",
          [⟨"row_0_0", "is_indian", "Y"⟩]⟩).printed
        = successHeader ⟨201, "", "doc1", 200, "", ["Acme\n"], 200, "",
            [⟨"row_0_0", "is_indian", "Y"⟩]⟩ ++ results.map printedLine
          ++ ["\nResults saved to company_classification_results.json"] :=
  spec_c3 ⟨201, "", "doc1", 200, "", ["Acme\n"], 200, "",
    [⟨"row_0_0", "is_indian", "Y"⟩]⟩ rfl rfl rfl

/-- C4. A non-201 upload response aborts the run at once: the only printed
line is the error message carrying the raw response body, and no output file
is written; in particular none of the later steps leaves any trace. -/
theorem spec_c4 (e : Env) (h : e.uploadStatus ≠ 201) :
    process_pdf e =
      { printed := ["Error: " ++ ("Failed to upload document: " ++ e.uploadBody)]
        outFile := none } := by
  simp [process_pdf, upload_pdf, h]

/-- Witness for C4 at a concrete environment. -/
theorem spec_c4_witness :
    process_pdf ⟨500, "boom", "doc1", 200, "", ["Acme\n"], 200, "", []⟩ =
      { printed := ["Error: " ++ ("Failed to upload document: " ++ "boom")]
        outFile := none } :=
  spec_c4 ⟨500, "boom", "doc1", 200, "", ["Acme\n"], 200, "", []⟩ (by decide)

/-- C5. Error atomicity: whenever any of the three HTTP calls fails, the run
writes no output file and prints an error message. -/
theorem spec_c5 (e : Env)
    (h : e.uploadStatus ≠ 201 ∨ e.chunksStatus ≠ 200 ∨ e.cellsStatus ≠ 200) :
    (process_pdf e).outFile = none ∧
    ∃ msg, ("Error: " ++ msg) ∈ (process_pdf e).printed := by
  by_cases h1 : e.uploadStatus = 201
  · by_cases h2 : e.chunksStatus = 200
    · have h3 : e.cellsStatus ≠ 200 := by tauto
      refine ⟨?_, "Failed to generate cells: " ++ e.cellsBody, ?_⟩ <;>
        simp [process_pdf, upload_pdf, create_table_rows_http, generate_table_cells,
          h1, h2, h3]
    · refine ⟨?_, "Failed to get document chunks: " ++ e.chunksBody, ?_⟩ <;>
        simp [process_pdf, upload_pdf, create_table_rows_http, h1, h2]
  · refine ⟨?_, "Failed to upload document: " ++ e.uploadBody, ?_⟩ <;>
      simp [process_pdf, upload_pdf, h1]

/-- Witness for C5 at a concrete environment: the generate-cells call fails. -/
theorem spec_c5_witness :
    (process_pdf ⟨201, "", "doc1", 200, "", ["Acme\n"], 503, "down", []⟩).outFile = none ∧
    ∃ msg, ("Error: " ++ msg)
      ∈ (process_pdf ⟨201, "", "doc1", 200, "", ["Acme\n"], 503, "down", []⟩).printed :=
  spec_c5 ⟨201, "", "doc1", 200, "", ["Acme\n"], 503, "down", []⟩ (by right; right; decide)

/-! ### Claims C7, C10 -/

/-- C7. Concrete scenario: the chunk `"Acme Corp\n\nBeta Inc\n"` yields
exactly the rows "Acme Corp" and "Beta Inc"; with cells only for the
"Acme Corp" row (one per column), aggregation yields one fully-populated
result and one all-"N/A" result. -/
theorem spec_c7 :
    create_table_rows ["Acme Corp\n\nBeta Inc\n"]
      = [{ id := "row_0_0", sourceData := "Acme Corp", hidden := false, cells := [] },
         { id := "row_0_1", sourceData := "Beta Inc", hidden := false, cells := [] }] ∧
    aggregate (create_table_rows ["Acme Corp\n\nBeta Inc\n"])
      [⟨"row_0_0", "is_indian", "Y"⟩, ⟨"row_0_0", "is_startup", "N"⟩,
        ⟨"row_0_0", "is_tech", "Y"⟩]
      = [{ company := "Acme Corp", isIndian := "Y", isStartup := "N", isTech := "Y" },
         { company := "Beta Inc", isIndian := "N/A", isStartup := "N/A", isTech := "N/A" }] := by
  constructor <;> decide

/-- C10. Trimmed company names: every row's `sourceData` is the stripped
form of a line of a chunk's (stripped) text, so it has no leading or
trailing whitespace. -/
theorem spec_c10 (chunks : List String) (row : Row)
    (hrow : row ∈ create_table_rows chunks) :
    (∀ c, row.sourceData.data.head? = some c → pyIsSpace c = false) ∧
    (∀ c, row.sourceData.data.getLast? = some c → pyIsSpace c = false) ∧
    ∃ content ∈ chunks, ∃ line ∈ splitNl (pyStrip content),
      row.sourceData = pyStrip line := by
  rw [create_table_rows_eq_contribs] at hrow
  obtain ⟨rs, hrs, hrow2⟩ := List.mem_flatten.mp hrow
  obtain ⟨content, hc, j, s2, rfl⟩ := contribsGo_mem chunks 0 0 rs hrs
  obtain ⟨hcells, hhid, line, hline, hnb, hsd⟩ := chunkRows_mem j _ s2 row hrow2
  refine ⟨?_, ?_, content, hc, line, hline, hsd⟩
  · intro c hhead
    rw [hsd] at hhead
    exact pyStripL_head line.data c hhead
  · intro c hlast
    rw [hsd] at hlast
    exact pyStripL_getLast line.data c hlast

/-- Witness for C10 at a concrete input: the row built from a padded line is
trimmed. -/
theorem spec_c10_witness :
    (∀ c, ("Acme Corp" : String).data.head? = some c → pyIsSpace c = false) ∧
    (∀ c, ("Acme Corp" : String).data.getLast? = some c → pyIsSpace c = false) ∧
    ∃ content ∈ ["  Acme Corp  \n"], ∃ line ∈ splitNl (pyStrip content),
      ("Acme Corp" : String) = pyStrip line :=
  spec_c10 ["  Acme Corp  \n"]
    { id := "row_0_0", sourceData := "Acme Corp", hidden := false, cells := [] }
    (by decide)

/-! ### Claim C6 -/

set_option maxRecDepth 20000

set_option maxHeartbeats 4000000

/-- C6. The column builder returns exactly 3 columns; the technology
column's query is the fixed prefix followed by the comma-separated category
labels, and it contains every label of the fixed category list exactly
once. -/
theorem spec_c6 :
    create_table_columns.length = 3 ∧
    (∀ col ∈ create_table_columns, col.id = "is_tech" → col.query = techQuery) ∧
    techQuery = "Is this company related to technology, specifically in any of these areas: "
      ++ String.intercalate ", " TECH_AREAS ++ "?" ∧
    (∀ lab ∈ TECH_AREAS, countOccur lab techQuery = 1) := by
  refine ⟨rfl, ?_, rfl, by decide⟩
  intro col hcol hid
  simp only [create_table_columns, List.mem_cons, List.mem_singleton,
    List.not_mem_nil, or_false] at hcol
  rcases hcol with rfl | rfl | rfl
  · exact absurd hid (by decide)
  · exact absurd hid (by decide)
  · rfl

/-- Witness for C6 at a concrete label. -/
theorem spec_c6_witness : countOccur "Blockchain" techQuery = 1 :=
  spec_c6.2.2.2 "Blockchain" (by decide)
